import Mathlib

/-!
# Verification of the sampling/retention engine and layout/scroll engine

Shallow embedding of the core of the `bottom` terminal dashboard:

* `src/app/data_collection.rs` — the stateful sampling engine
  (`DataState::update_data`, `set_if_valid`, `push_if_valid`, eviction);
* `src/canvas.rs` — the column-width allocator
  (`get_variable_intrinsic_widths`) and the scroll-offset computation
  (`get_start_position`).

Modelling conventions:

* `std::time::Instant` is modelled as `ℕ` (whole seconds); the code compares
  durations only through `Duration::as_secs`, so at whole-second timestamps
  `duration_since(a).as_secs()` is truncated subtraction `now - a`.
* Rust `Result<T, E>` values whose error payload is never inspected are
  modelled as `Option`: `some` is `Ok`, `none` is `Err`.
* `f64` quantities that only flow through the state (usages, ratios) are
  modelled as `ℚ`; `as i32` truncation of non-negative products is `Int.floor`
  (all call sites pass non-negative ratios).
* `HashMap<String, (f64, Instant)>` is modelled as an association list;
  the claims only concern which entries are retained.
* Machine integers (`u16`, `i32`, `i64`, `u64`) are modelled as `ℕ`/`ℤ`;
  arithmetic that can panic (integer division by zero, unsigned-subtraction
  underflow) makes the modelled function return `none`.
-/

/-- Per-core datum, from `src/app/data_collection/cpu.rs` (`CPUData`). -/
structure CPUData where
  cpu_name : String
  cpu_usage : ℚ
  deriving DecidableEq, Repr

/-- One CPU sample, from `src/app/data_collection/cpu.rs` (`CPUPackage`). -/
structure CPUPackage where
  cpu_vec : List CPUData
  instant : ℕ
  deriving DecidableEq, Repr

/-- Modelled from the spec: `MemSample` is `(used_bytes, total_bytes)` plus a
timestamp; the module `data_collection/mem.rs` is not in the sources, only its
declaration and its caller `update_data` are. Eviction reads `instant`. -/
structure MemData where
  mem_used : ℕ
  mem_total : ℕ
  instant : ℕ
  deriving DecidableEq, Repr

/-- Modelled from the spec: `NetworkSample` is per-interval `(rx, tx)` plus a
timestamp; the module `data_collection/network.rs` is not in the sources.
Eviction reads `instant`. -/
structure NetworkData where
  rx : ℕ
  tx : ℕ
  instant : ℕ
  deriving DecidableEq, Repr

/-- One device's I/O counters, from `src/widgets/disks.rs` (`IOData`). -/
structure IOData where
  mount_point : String
  read_bytes : ℕ
  write_bytes : ℕ
  instant : ℕ
  deriving DecidableEq, Repr

/-- Modelled from the spec: `IOSample` groups per-device counters under one
timestamp; the module `data_collection/disks.rs` defining `IOPackage` is not in
the sources. Eviction reads `instant`. -/
structure IOPackage where
  io_list : List IOData
  instant : ℕ
  deriving DecidableEq, Repr

/-- Disk-capacity snapshot entry, from `src/widgets/disks.rs` (`DiskData`). -/
structure DiskData where
  name : String
  mount_point : String
  free_space : ℕ
  used_space : ℕ
  total_space : ℕ
  deriving DecidableEq, Repr

/-- Modelled from the spec: `TempSample` is `(sensor_name, temperature)`;
the module `data_collection/temperature.rs` is not in the sources. -/
structure TempData where
  component_name : String
  temperature : ℚ
  deriving DecidableEq, Repr

/-- Modelled from the spec: `ProcessRow` is `(pid, name, cpu_percent,
mem_percent)`; the module `data_collection/processes.rs` is not in the
sources. -/
structure ProcessData where
  pid : ℕ
  name : String
  cpu_usage_percent : ℚ
  mem_usage_percent : ℚ
  deriving DecidableEq, Repr

/-- Temperature unit selector, from `data_collection/temperature.rs` usage in
`data_collection.rs`. -/
inductive TemperatureType where
  | Celsius
  | Kelvin
  | Fahrenheit
  deriving DecidableEq, Repr

/-- The dataset, from `src/app/data_collection.rs` (`struct Data`). -/
structure Data where
  list_of_cpu_packages : List CPUPackage
  list_of_io : List IOPackage
  list_of_physical_io : List IOPackage
  memory : List MemData
  swap : List MemData
  list_of_temperature_sensor : List TempData
  network : List NetworkData
  list_of_processes : List ProcessData
  grouped_list_of_processes : Option (List ProcessData)
  list_of_disks : List DiskData
  deriving DecidableEq, Repr

/-- `Data::default()`: every history and snapshot empty, no grouped list. -/
def Data.default : Data :=
  { list_of_cpu_packages := []
    list_of_io := []
    list_of_physical_io := []
    memory := []
    swap := []
    list_of_temperature_sensor := []
    network := []
    list_of_processes := []
    grouped_list_of_processes := none
    list_of_disks := [] }

/-- The engine state, from `src/app/data_collection.rs` (`struct DataState`).
The `sys : System` handle is external (the metrics provider) and is not part
of the modelled state; its effects enter through `TickInputs`. -/
structure DataState where
  data : Data
  first_run : Bool
  stale_max_seconds : ℕ
  prev_pid_stats : List (String × (ℚ × ℕ))
  prev_idle : ℚ
  prev_non_idle : ℚ
  prev_net_rx_bytes : ℕ
  prev_net_tx_bytes : ℕ
  prev_net_access_time : ℕ
  temperature_type : TemperatureType
  last_clean : ℕ
  use_current_cpu_total : Bool
  deriving DecidableEq, Repr

/-- `set_if_valid` from `src/app/data_collection.rs`: on `Ok` overwrite the
stored value with a clone of the result, on `Err` leave it unchanged. -/
def set_if_valid {T : Type} (result : Option T) (value_to_set : T) : T :=
  match result with
  | some r => r
  | none => value_to_set

/-- `push_if_valid` from `src/app/data_collection.rs`: on `Ok` append a clone
of the result to the vector, on `Err` append nothing. -/
def push_if_valid {T : Type} (result : Option T) (vector_to_push : List T) : List T :=
  match result with
  | some r => vector_to_push ++ [r]
  | none => vector_to_push

/-- The per-tick inputs of `update_data`: the instant taken at the top of the
tick, the instant taken just before the eviction check, the result of each
per-category provider read, and the values the (externally defined) rate
helpers leave in the `prev_*` bookkeeping fields they mutate through `&mut`
borrows. -/
structure TickInputs where
  current_instant : ℕ
  clean_instant : ℕ
  net_result : Option NetworkData
  cpu_result : Option CPUPackage
  mem_result : Option MemData
  swap_result : Option MemData
  proc_result : Option (List ProcessData)
  disk_result : Option (List DiskData)
  io_result : Option IOPackage
  temp_result : Option (List TempData)
  new_prev_pid_stats : List (String × (ℚ × ℕ))
  new_prev_idle : ℚ
  new_prev_non_idle : ℚ
  new_prev_net_rx_bytes : ℕ
  new_prev_net_tx_bytes : ℕ
  new_prev_net_access_time : ℕ
  deriving DecidableEq, Repr

/-- The merge phase of `update_data` (lines 101–148): `push_if_valid` each
time-series category, `set_if_valid` each snapshot category, and record the
`prev_*` values the helpers left behind. `list_of_physical_io` and
`grouped_list_of_processes` are not touched by `update_data`. -/
def DataState.merge_step (s : DataState) (i : TickInputs) : DataState :=
  { s with
    data := { s.data with
      network := push_if_valid i.net_result s.data.network
      list_of_cpu_packages := push_if_valid i.cpu_result s.data.list_of_cpu_packages
      memory := push_if_valid i.mem_result s.data.memory
      swap := push_if_valid i.swap_result s.data.swap
      list_of_processes := set_if_valid i.proc_result s.data.list_of_processes
      list_of_disks := set_if_valid i.disk_result s.data.list_of_disks
      list_of_io := push_if_valid i.io_result s.data.list_of_io
      list_of_temperature_sensor :=
        set_if_valid i.temp_result s.data.list_of_temperature_sensor }
    prev_pid_stats := i.new_prev_pid_stats
    prev_idle := i.new_prev_idle
    prev_non_idle := i.new_prev_non_idle
    prev_net_rx_bytes := i.new_prev_net_rx_bytes
    prev_net_tx_bytes := i.new_prev_net_tx_bytes
    prev_net_access_time := i.new_prev_net_access_time }

/-- The warm-up reset of `update_data` (lines 150–153): on the first run,
replace the whole dataset by `Data::default()` and clear the flag. -/
def DataState.reset_step (s : DataState) : DataState :=
  if s.first_run then { s with data := Data.default, first_run := false } else s

/-- The eviction sweep of `update_data` (lines 156–221): when more than
`stale_max_seconds` have elapsed since `last_clean`, drop pid-stat entries and
time-series entries older than the threshold and stamp `last_clean`. -/
def DataState.evict_step (s : DataState) (clean_instant : ℕ) : DataState :=
  if s.stale_max_seconds < clean_instant - s.last_clean then
    { s with
      prev_pid_stats := s.prev_pid_stats.filter
        (fun kv => clean_instant - kv.2.2 ≤ s.stale_max_seconds)
      data := { s.data with
        list_of_cpu_packages := s.data.list_of_cpu_packages.filter
          (fun entry => clean_instant - entry.instant ≤ s.stale_max_seconds)
        memory := s.data.memory.filter
          (fun entry => clean_instant - entry.instant ≤ s.stale_max_seconds)
        swap := s.data.swap.filter
          (fun entry => clean_instant - entry.instant ≤ s.stale_max_seconds)
        network := s.data.network.filter
          (fun entry => clean_instant - entry.instant ≤ s.stale_max_seconds)
        list_of_io := s.data.list_of_io.filter
          (fun entry => clean_instant - entry.instant ≤ s.stale_max_seconds) }
      last_clean := clean_instant }
  else s

/-- `DataState::update_data` from `src/app/data_collection.rs`: merge all
categories, apply the first-run reset, then run the (amortised) eviction
sweep at `clean_instant`. -/
def DataState.update_data (s : DataState) (i : TickInputs) : DataState :=
  ((s.merge_step i).reset_step).evict_step i.clean_instant

/-! ## Layout engine: `get_variable_intrinsic_widths` (`src/canvas.rs` 961–1022) -/

/-- One iteration of the allocation loop body (lines 975–998): given the
remaining width, the desired width and the threshold of the current column,
return the allocated width and the new remaining width. -/
def allocStep (rem : ℤ) (d : ℤ) (th : ℕ) : ℕ × ℤ :=
  if d < (th : ℤ) then
    -- Try to take threshold, else 0
    if rem < (th : ℤ) then (0, rem) else (th, rem - th)
  else
    -- Take as large as possible
    if rem < d then
      if rem < (th : ℤ) then (0, rem) else (rem.toNat, 0)
    else (d.toNat, rem - d)

/-- The allocation loop (lines 974–1005) over the zipped desired widths and
thresholds: returns the widths vector (zeros for columns after the first
zero-width allocation, where the loop breaks), `last_index` (the count of
columns allocated before the first zero) and the final remaining width. -/
def allocPass : List (ℤ × ℕ) → ℤ → List ℕ × ℕ × ℤ
  | [], rem => ([], 0, rem)
  | (d, th) :: rest, rem =>
    let step := allocStep rem d th
    if step.1 = 0 then
      -- `if resulting_widths[itx] == 0 { break }`: later entries keep their
      -- initial 0 from `vec![0; num_widths]`, nothing more is subtracted.
      (0 :: rest.map (fun _ => 0), 0, rem)
    else
      let r := allocPass rest step.2
      (step.1 :: r.1, r.2.1 + 1, r.2.2)

/-- The redistribution loop (lines 1012–1018): add `for_all` to every entry of
the widths vector and hand out one extra unit per entry while `remainder`
is still positive. -/
def redistribute : List ℕ → ℕ → ℤ → List ℕ
  | [], _, _ => []
  | w :: ws, for_all, remainder =>
    (w + for_all + (if 0 < remainder then 1 else 0)) ::
      redistribute ws for_all (remainder - 1)

/-- The desired-width computation of lines 969–972:
`(desired_width_ratio * total_width as f64) as i32`, with the `f64` ratios
modelled as `ℚ` and the `as i32` cast of the non-negative product modelled as
`Int.floor` (all call sites pass non-negative ratios, where truncation and
floor agree). -/
def desiredWidths (desired_widths_ratio : List ℚ) (total_width : ℕ) : List ℤ :=
  desired_widths_ratio.map (fun r => ⌊r * (total_width : ℚ)⌋)

/-- The allocation pass of `get_variable_intrinsic_widths` on its inputs:
desired widths from the ratios, zipped with the thresholds, starting from
`remaining = total_width - (num_widths - 1)`. -/
def allocResult (total_width : ℕ) (desired_widths_ratio : List ℚ)
    (width_thresholds : List ℕ) : List ℕ × ℕ × ℤ :=
  allocPass ((desiredWidths desired_widths_ratio total_width).zip width_thresholds)
    ((total_width : ℤ) - ((desired_widths_ratio.length : ℤ) - 1))

/-- `get_variable_intrinsic_widths` from `src/canvas.rs`: compute column
widths for the given total width, desired ratios and per-column minimum
thresholds. `none` models a panic: the `u16` underflow of
`total_width - (num_widths - 1)` when `num_widths = 0` or
`total_width < num_widths - 1`, and the integer division by zero in the
redistribution step when `last_index = 0`. -/
def get_variable_intrinsic_widths (total_width : ℕ) (desired_widths_ratio : List ℚ)
    (width_thresholds : List ℕ) : Option (List ℕ × ℕ) :=
  let num_widths := desired_widths_ratio.length
  if num_widths = 0 then none
  else if total_width + 1 < num_widths then none
  else
    let res := allocResult total_width desired_widths_ratio width_thresholds
    if res.2.1 < num_widths then
      if res.2.1 = 0 then none
      else
        some (redistribute res.1 ((res.2.2 / (res.2.1 : ℤ)).toNat)
          (res.2.2 % (res.2.1 : ℤ)), res.2.1)
    else some (res.1, res.2.1)

/-- The spec's description of step 4 of the allocation algorithm, used to
compare against the code: distribute the leftover evenly across exactly the
first `rendered_count` columns, remainder one unit at a time from the first
column; columns at or past `rendered_count` keep their width. -/
def specRedistribute (ws : List ℕ) (rendered_count : ℕ) (leftover : ℕ) : List ℕ :=
  ws.mapIdx (fun idx w =>
    if idx < rendered_count then
      w + leftover / rendered_count +
        (if idx < leftover % rendered_count then 1 else 0)
    else w)

/-! ## Scroll engine: `get_start_position` (`src/canvas.rs` 1024–1055) -/

/-- Scroll direction, from `app::ScrollDirection`. -/
inductive ScrollDirection where
  | UP
  | DOWN
  deriving DecidableEq, Repr

/-- `get_start_position` from `src/canvas.rs`: given the number of visible
rows, the direction, the persisted previous offset and the currently selected
index, return the new persisted offset and the returned start position (the
code returns the value and writes the persisted offset through `&mut`). -/
def get_start_position (num_rows : ℤ) (scroll_direction : ScrollDirection)
    (previously_scrolled_position : ℤ) (currently_selected_position : ℤ) :
    ℤ × ℤ :=
  match scroll_direction with
  | ScrollDirection.DOWN =>
    if currently_selected_position < previously_scrolled_position + num_rows then
      (previously_scrolled_position, previously_scrolled_position)
    else if num_rows ≤ currently_selected_position then
      (currently_selected_position - num_rows, currently_selected_position - num_rows)
    else
      (previously_scrolled_position, 0)
  | ScrollDirection.UP =>
    if currently_selected_position ≤ previously_scrolled_position then
      (currently_selected_position, currently_selected_position)
    else
      (previously_scrolled_position, previously_scrolled_position)

/-- Iterate `get_start_position` with direction DOWN over a sequence of
selected indices, threading the persisted offset, and collect the returned
offsets. -/
def downOffsets (num_rows : ℤ) : ℤ → List ℤ → List ℤ
  | _, [] => []
  | prev, s :: rest =>
    let r := get_start_position num_rows ScrollDirection.DOWN prev s
    r.2 :: downOffsets num_rows r.1 rest

/-! ## Rate counter (spec §4.2) -/

/-- Modelled from the spec: the shared rate-counter algorithm of §4.2. The
per-site implementations (`data_collection/network.rs`,
`data_collection/processes.rs`) are not in the sources — only their module
declarations and their caller `update_data` are; the present
`src/widgets/network.rs` `get_network_data` returns raw counters and computes
no rate. `dt = curr_time - prev_time`; if `dt ≤ 0` the rate is 0;
`dv = curr_value - prev_value`; if `dv < 0` the rate is 0; else `dv / dt`. -/
def rateCounter (prev_value curr_value : ℚ) (prev_time curr_time : ℚ) : ℚ :=
  let dt := curr_time - prev_time
  if dt ≤ 0 then 0
  else
    let dv := curr_value - prev_value
    if dv < 0 then 0 else dv / dt

/-! ## Concrete states and tick inputs used in the concrete theorems -/

/-- A freshly constructed engine (`first_run = true`) that has somehow already
accumulated a non-empty memory and network history. -/
def warmState : DataState :=
  { data := { Data.default with
      memory := [{ mem_used := 1, mem_total := 2, instant := 3 }]
      network := [{ rx := 1, tx := 1, instant := 3 }] }
    first_run := true
    stale_max_seconds := 600
    prev_pid_stats := []
    prev_idle := 0
    prev_non_idle := 0
    prev_net_rx_bytes := 0
    prev_net_tx_bytes := 0
    prev_net_access_time := 0
    temperature_type := TemperatureType.Celsius
    last_clean := 0
    use_current_cpu_total := false }

/-- A tick at instant 10 on which every provider read succeeds. -/
def successTick : TickInputs :=
  { current_instant := 10
    clean_instant := 10
    net_result := some { rx := 5, tx := 6, instant := 10 }
    cpu_result := some { cpu_vec := [{ cpu_name := "cpu0", cpu_usage := 0 }], instant := 10 }
    mem_result := some { mem_used := 4, mem_total := 8, instant := 10 }
    swap_result := some { mem_used := 0, mem_total := 8, instant := 10 }
    proc_result := some [{ pid := 1, name := "init", cpu_usage_percent := 0, mem_usage_percent := 0 }]
    disk_result := some [⟨"sda", "/", 1, 1, 2⟩]
    io_result := some { io_list := [], instant := 10 }
    temp_result := some [{ component_name := "coretemp", temperature := 40 }]
    new_prev_pid_stats := [("1", (0, 10))]
    new_prev_idle := 0
    new_prev_non_idle := 0
    new_prev_net_rx_bytes := 5
    new_prev_net_tx_bytes := 6
    new_prev_net_access_time := 10 }

/-- A tick at instant 20 on which every provider read fails, and which leaves
the `prev_*` bookkeeping unchanged from `successTick`. -/
def failTick : TickInputs :=
  { current_instant := 20
    clean_instant := 20
    net_result := none
    cpu_result := none
    mem_result := none
    swap_result := none
    proc_result := none
    disk_result := none
    io_result := none
    temp_result := none
    new_prev_pid_stats := [("1", (0, 10))]
    new_prev_idle := 0
    new_prev_non_idle := 0
    new_prev_net_rx_bytes := 5
    new_prev_net_tx_bytes := 6
    new_prev_net_access_time := 10 }

/-- A warmed-up engine (`first_run = false`) whose histories and pid map hold
both fresh entries (instant 650) and stale entries (instant 50), with the
staleness window at 600 seconds and the last sweep at instant 0. -/
def agedState : DataState :=
  { data := { Data.default with
      list_of_cpu_packages := [{ cpu_vec := [], instant := 50 }, { cpu_vec := [], instant := 650 }]
      memory := [{ mem_used := 1, mem_total := 2, instant := 50 },
        { mem_used := 1, mem_total := 2, instant := 650 }]
      swap := [{ mem_used := 0, mem_total := 2, instant := 50 }]
      network := [{ rx := 1, tx := 1, instant := 50 }, { rx := 2, tx := 2, instant := 650 }]
      list_of_io := [{ io_list := [], instant := 50 }]
      list_of_physical_io := [{ io_list := [], instant := 50 }]
      list_of_disks := [⟨"sda", "/", 1, 1, 2⟩] }
    first_run := false
    stale_max_seconds := 600
    prev_pid_stats := [("1", (0, 50)), ("2", (0, 650))]
    prev_idle := 0
    prev_non_idle := 0
    prev_net_rx_bytes := 2
    prev_net_tx_bytes := 2
    prev_net_access_time := 650
    temperature_type := TemperatureType.Celsius
    last_clean := 0
    use_current_cpu_total := false }

/-- A tick at instant 700 whose provider reads all fail; its eviction check
runs at instant 700 and finds the gate open for `agedState`. -/
def lateTick : TickInputs :=
  { current_instant := 700
    clean_instant := 700
    net_result := none
    cpu_result := none
    mem_result := none
    swap_result := none
    proc_result := none
    disk_result := none
    io_result := none
    temp_result := none
    new_prev_pid_stats := [("1", (0, 50)), ("2", (0, 650))]
    new_prev_idle := 0
    new_prev_non_idle := 0
    new_prev_net_rx_bytes := 2
    new_prev_net_tx_bytes := 2
    new_prev_net_access_time := 650 }

/-! ## Helper lemmas: field preservation across the phases of `update_data` -/

theorem merge_step_stale (s : DataState) (i : TickInputs) :
    (s.merge_step i).stale_max_seconds = s.stale_max_seconds := rfl

theorem merge_step_last_clean (s : DataState) (i : TickInputs) :
    (s.merge_step i).last_clean = s.last_clean := rfl

theorem merge_step_first_run (s : DataState) (i : TickInputs) :
    (s.merge_step i).first_run = s.first_run := rfl

theorem reset_step_stale (s : DataState) :
    s.reset_step.stale_max_seconds = s.stale_max_seconds := by
  unfold DataState.reset_step; split <;> rfl

theorem reset_step_last_clean (s : DataState) :
    s.reset_step.last_clean = s.last_clean := by
  unfold DataState.reset_step; split <;> rfl

theorem reset_step_prev_pid_stats (s : DataState) :
    s.reset_step.prev_pid_stats = s.prev_pid_stats := by
  unfold DataState.reset_step; split <;> rfl

theorem reset_step_first_run (s : DataState) : s.reset_step.first_run = false := by
  unfold DataState.reset_step
  split
  · rfl
  · rename_i h
    simpa using h

theorem evict_step_first_run (s : DataState) (c : ℕ) :
    (s.evict_step c).first_run = s.first_run := by
  unfold DataState.evict_step; split <;> rfl

theorem evict_step_disks (s : DataState) (c : ℕ) :
    (s.evict_step c).data.list_of_disks = s.data.list_of_disks := by
  unfold DataState.evict_step; split <;> rfl

theorem update_data_first_run_false (s : DataState) (i : TickInputs) :
    (s.update_data i).first_run = false := by
  unfold DataState.update_data
  rw [evict_step_first_run, reset_step_first_run]

/-! ## C1: the first-tick reset -/

/-- C1 (counterexample): starting from a freshly constructed state with a
non-empty memory and network history, a tick on which every provider read
succeeds leaves the memory history with 0 entries — not with exactly the one
entry appended by the tick: the warm-up reset discards the new entries too. -/
theorem first_tick_reset_counterexample :
    warmState.first_run = true ∧
    warmState.data.memory ≠ [] ∧
    warmState.data.network ≠ [] ∧
    (successTick.net_result.isSome ∧ successTick.cpu_result.isSome ∧
      successTick.mem_result.isSome ∧ successTick.swap_result.isSome ∧
      successTick.proc_result.isSome ∧ successTick.disk_result.isSome ∧
      successTick.io_result.isSome ∧ successTick.temp_result.isSome) ∧
    (warmState.update_data successTick).data.memory.length = 0 ∧
    ¬ (warmState.update_data successTick).data.memory.length = 1 := by
  decide

/-- C1 (amended): on the first `update_data` call after construction
(`first_run = true`), every time-series history is empty when the call
returns — the warm-up reset discards the pre-existing entries and the entries
appended by this very tick alike, whether or not the merges succeeded. -/
theorem update_data_first_run_clears_histories (s : DataState) (i : TickInputs)
    (h : s.first_run = true) :
    (s.update_data i).data.list_of_cpu_packages = [] ∧
    (s.update_data i).data.memory = [] ∧
    (s.update_data i).data.swap = [] ∧
    (s.update_data i).data.network = [] ∧
    (s.update_data i).data.list_of_io = [] ∧
    (s.update_data i).data.list_of_physical_io = [] := by
  have hm : (s.merge_step i).first_run = true := h
  unfold DataState.update_data DataState.reset_step
  rw [if_pos hm]
  unfold DataState.evict_step
  split <;> simp [Data.default]

/-- C1 witness: the amended theorem applied to `warmState` and a fully
successful tick. -/
theorem update_data_first_run_clears_histories_witness :
    (warmState.update_data successTick).data.list_of_cpu_packages = [] ∧
    (warmState.update_data successTick).data.memory = [] ∧
    (warmState.update_data successTick).data.swap = [] ∧
    (warmState.update_data successTick).data.network = [] ∧
    (warmState.update_data successTick).data.list_of_io = [] ∧
    (warmState.update_data successTick).data.list_of_physical_io = [] :=
  update_data_first_run_clears_histories warmState successTick rfl

/-! ## Desired-width evaluations used by the concrete layout theorems -/

theorem desiredWidths_half_20 : desiredWidths [1/2, 1/2] 20 = [10, 10] := by
  norm_num [desiredWidths]

theorem desiredWidths_half_5 : desiredWidths [1/2, 1/2] 5 = [2, 2] := by
  norm_num [desiredWidths]

theorem desiredWidths_tenth_ninth_20 : desiredWidths [1/10, 9/10] 20 = [2, 18] := by
  norm_num [desiredWidths]

theorem desiredWidths_tenth_tenth_40 : desiredWidths [1/10, 1/10] 40 = [4, 4] := by
  norm_num [desiredWidths]

/-! ## C8: the concrete allocation example -/

/-- C8: `get_variable_intrinsic_widths` on total width 20, ratios
`[0.5, 0.5]` and thresholds `[5, 5]` returns widths `[10, 9]` with
`rendered_count = 2`. -/
theorem alloc_concrete_half_half_20 :
    get_variable_intrinsic_widths 20 [1/2, 1/2] [5, 5] = some ([10, 9], 2) := by
  simp only [get_variable_intrinsic_widths, allocResult, desiredWidths_half_20]
  decide

/-! ## C9: the allocator is not total -/

/-- C9: on total width 5, ratios `[0.5, 0.5]` and thresholds `[5, 5]`, the
first column is allocated width 0 (remaining width 4 is below the threshold
5), the pass ends with `last_index = 0`, and the redistribution step divides
by zero — the function panics, modelled as `none`. -/
theorem alloc_zero_rendered_panics :
    allocResult 5 [1/2, 1/2] [5, 5] = ([0, 0], 0, 4) ∧
    get_variable_intrinsic_widths 5 [1/2, 1/2] [5, 5] = none := by
  constructor
  · simp only [allocResult, desiredWidths_half_5]
    decide
  · simp only [get_variable_intrinsic_widths, allocResult, desiredWidths_half_5]
    decide

/-! ## C6: snapshot retention on failure -/

theorem reset_step_of_not_first_run (s : DataState) (h : s.first_run = false) :
    s.reset_step = s := by
  unfold DataState.reset_step
  rw [h]
  simp

/-- C6: snapshot categories are replaced wholesale on success and retained
unchanged on failure. If the disk read succeeds on tick N−1 and fails on
tick N, the disk snapshot after tick N equals the snapshot after tick N−1
exactly; and on any tick past the first (`first_run = false`) a successful
read replaces the stored snapshot entirely by the read value. -/
theorem snapshot_retention_on_failure (s : DataState) (i1 i2 : TickInputs)
    (d : List DiskData) (h1 : i1.disk_result = some d) (h2 : i2.disk_result = none) :
    ((s.update_data i1).update_data i2).data.list_of_disks
      = (s.update_data i1).data.list_of_disks ∧
    (s.first_run = false → (s.update_data i1).data.list_of_disks = d) := by
  constructor
  · conv_lhs => rw [DataState.update_data]
    rw [reset_step_of_not_first_run _ (by rw [merge_step_first_run, update_data_first_run_false]),
      evict_step_disks]
    simp [DataState.merge_step, set_if_valid, h2]
  · intro hfr
    unfold DataState.update_data
    rw [reset_step_of_not_first_run _ (by rw [merge_step_first_run, hfr]), evict_step_disks]
    simp [DataState.merge_step, set_if_valid, h1]

/-- C6 witness: the theorem applied to the warmed-up `agedState`, a successful
tick and a failing tick. -/
theorem snapshot_retention_on_failure_witness :
    ((agedState.update_data successTick).update_data failTick).data.list_of_disks
      = (agedState.update_data successTick).data.list_of_disks ∧
    (agedState.update_data successTick).data.list_of_disks = [⟨"sda", "/", 1, 1, 2⟩] :=
  ⟨(snapshot_retention_on_failure agedState successTick failTick _ rfl rfl).1,
    (snapshot_retention_on_failure agedState successTick failTick _ rfl rfl).2 rfl⟩

/-! ## C10: the frame of the eviction sweep -/

/-- C10: the eviction sweep inside `update_data` leaves the snapshot fields
(`list_of_disks`, `list_of_processes`, `grouped_list_of_processes`,
`list_of_temperature_sensor`) and the `list_of_physical_io` time-series
unchanged, along with every state field other than the five swept histories,
the pid map and `last_clean` — in particular `list_of_physical_io` is never
evicted. -/
theorem evict_step_frame (s : DataState) (c : ℕ) :
    (s.evict_step c).data.list_of_disks = s.data.list_of_disks ∧
    (s.evict_step c).data.list_of_processes = s.data.list_of_processes ∧
    (s.evict_step c).data.grouped_list_of_processes = s.data.grouped_list_of_processes ∧
    (s.evict_step c).data.list_of_temperature_sensor = s.data.list_of_temperature_sensor ∧
    (s.evict_step c).data.list_of_physical_io = s.data.list_of_physical_io ∧
    (s.evict_step c).first_run = s.first_run ∧
    (s.evict_step c).prev_idle = s.prev_idle ∧
    (s.evict_step c).prev_non_idle = s.prev_non_idle ∧
    (s.evict_step c).prev_net_rx_bytes = s.prev_net_rx_bytes ∧
    (s.evict_step c).prev_net_tx_bytes = s.prev_net_tx_bytes ∧
    (s.evict_step c).prev_net_access_time = s.prev_net_access_time ∧
    (s.evict_step c).temperature_type = s.temperature_type ∧
    (s.evict_step c).stale_max_seconds = s.stale_max_seconds ∧
    (s.evict_step c).use_current_cpu_total = s.use_current_cpu_total := by
  unfold DataState.evict_step
  split <;>
    exact ⟨rfl, rfl, rfl, rfl, rfl, rfl, rfl, rfl, rfl, rfl, rfl, rfl, rfl, rfl⟩

/-! ## C5: eviction bounds the age of every retained entry -/

/-- C5: when the eviction gate of `update_data` is open
(`clean_instant - last_clean > stale_max_seconds`), after `update_data`
returns no retained entry of any swept time-series history is more than
`stale_max_seconds` old relative to the eviction instant, and every retained
pid-stat entry is within the window as well (older ones were removed). -/
theorem update_data_eviction_bounds_ages (s : DataState) (i : TickInputs)
    (hgate : s.stale_max_seconds < i.clean_instant - s.last_clean) :
    (∀ e ∈ (s.update_data i).data.list_of_cpu_packages,
      i.clean_instant - e.instant ≤ s.stale_max_seconds) ∧
    (∀ e ∈ (s.update_data i).data.memory,
      i.clean_instant - e.instant ≤ s.stale_max_seconds) ∧
    (∀ e ∈ (s.update_data i).data.swap,
      i.clean_instant - e.instant ≤ s.stale_max_seconds) ∧
    (∀ e ∈ (s.update_data i).data.network,
      i.clean_instant - e.instant ≤ s.stale_max_seconds) ∧
    (∀ e ∈ (s.update_data i).data.list_of_io,
      i.clean_instant - e.instant ≤ s.stale_max_seconds) ∧
    (∀ kv ∈ (s.update_data i).prev_pid_stats,
      i.clean_instant - kv.2.2 ≤ s.stale_max_seconds) := by
  unfold DataState.update_data DataState.evict_step
  rw [reset_step_stale, merge_step_stale, reset_step_last_clean, merge_step_last_clean,
    if_pos hgate]
  refine ⟨?_, ?_, ?_, ?_, ?_, ?_⟩ <;>
    · intro e he
      simp only [List.mem_filter, decide_eq_true_eq] at he
      exact he.2

/-- C5 witness: the theorem applied to `agedState` and a tick at instant 700,
where the gate `700 - 0 > 600` is open. -/
theorem update_data_eviction_bounds_ages_witness :
    (∀ e ∈ (agedState.update_data lateTick).data.list_of_cpu_packages,
      lateTick.clean_instant - e.instant ≤ agedState.stale_max_seconds) ∧
    (∀ e ∈ (agedState.update_data lateTick).data.memory,
      lateTick.clean_instant - e.instant ≤ agedState.stale_max_seconds) ∧
    (∀ e ∈ (agedState.update_data lateTick).data.swap,
      lateTick.clean_instant - e.instant ≤ agedState.stale_max_seconds) ∧
    (∀ e ∈ (agedState.update_data lateTick).data.network,
      lateTick.clean_instant - e.instant ≤ agedState.stale_max_seconds) ∧
    (∀ e ∈ (agedState.update_data lateTick).data.list_of_io,
      lateTick.clean_instant - e.instant ≤ agedState.stale_max_seconds) ∧
    (∀ kv ∈ (agedState.update_data lateTick).prev_pid_stats,
      lateTick.clean_instant - kv.2.2 ≤ agedState.stale_max_seconds) :=
  update_data_eviction_bounds_ages agedState lateTick (by decide)

/-! ## C7: the rate counter never produces a negative rate -/

/-- C7: for all inputs with `curr_time > prev_time` the computed rate is
non-negative, and the rate is exactly 0 when `curr_value < prev_value`
(counter reset); when `curr_time = prev_time` the rate is exactly 0. -/
theorem rateCounter_nonneg (pv cv pt ct : ℚ) :
    (pt < ct →
      0 ≤ rateCounter pv cv pt ct ∧ (cv < pv → rateCounter pv cv pt ct = 0)) ∧
    (ct = pt → rateCounter pv cv pt ct = 0) := by
  unfold rateCounter
  dsimp only
  constructor
  · intro hlt
    rw [if_neg (by linarith)]
    by_cases hdv : cv - pv < 0
    · rw [if_pos hdv]
      exact ⟨le_refl 0, fun _ => rfl⟩
    · rw [if_neg hdv]
      refine ⟨div_nonneg (by linarith [not_lt.mp hdv]) (by linarith), ?_⟩
      intro hcv
      exact absurd (by linarith : cv - pv < 0) hdv
  · intro heq
    rw [if_pos (by rw [heq]; simp)]

/-- C7 witness: a strictly increasing counter gives a non-negative rate and a
counter reset gives rate 0. -/
theorem rateCounter_nonneg_witness :
    0 ≤ rateCounter 3 5 0 1 ∧ rateCounter 5 3 0 1 = 0 :=
  ⟨((rateCounter_nonneg 3 5 0 1).1 (by norm_num)).1,
    ((rateCounter_nonneg 5 3 0 1).1 (by norm_num)).2 (by norm_num)⟩

/-! ## C2: the scroll window under direction DOWN -/

theorem get_start_position_down_step (n prev s : ℤ) (hn : 0 < n) (h0 : 0 ≤ prev)
    (hps : prev ≤ s) :
    (get_start_position n ScrollDirection.DOWN prev s).1
      = (get_start_position n ScrollDirection.DOWN prev s).2 ∧
    prev ≤ (get_start_position n ScrollDirection.DOWN prev s).2 ∧
    0 ≤ (get_start_position n ScrollDirection.DOWN prev s).1 ∧
    (get_start_position n ScrollDirection.DOWN prev s).2 ≤ s ∧
    s ≤ (get_start_position n ScrollDirection.DOWN prev s).2 + n := by
  simp only [get_start_position]
  split_ifs with h1 h2
  · exact ⟨rfl, le_refl _, h0, hps, by omega⟩
  · exact ⟨rfl, by omega, by omega, by omega, by omega⟩
  · exact absurd (by omega : n ≤ s) h2

theorem downOffsets_spec (n : ℤ) (hn : 0 < n) (l : List ℤ) :
    ∀ (prev : ℤ), l.Sorted (· ≤ ·) → 0 ≤ prev → (∀ s ∈ l, prev ≤ s) →
      List.Chain' (· ≤ ·) (prev :: downOffsets n prev l) ∧
      ∀ p ∈ (downOffsets n prev l).zip l, p.1 ≤ p.2 ∧ p.2 ≤ p.1 + n := by
  induction l with
  | nil =>
    intro prev _ _ _
    exact ⟨List.chain'_singleton _, by simp [downOffsets]⟩
  | cons s rest ih =>
    intro prev hsort h0 hall
    have hps : prev ≤ s := hall s (List.mem_cons_self _ _)
    obtain ⟨heq, hmono, hpos, hle, hub⟩ := get_start_position_down_step n prev s hn h0 hps
    rw [List.sorted_cons] at hsort
    set r := get_start_position n ScrollDirection.DOWN prev s with hr
    have hrest : ∀ t ∈ rest, r.1 ≤ t := by
      intro t ht
      calc r.1 = r.2 := heq
        _ ≤ s := hle
        _ ≤ t := hsort.1 t ht
    obtain ⟨ihchain, ihzip⟩ := ih r.1 hsort.2 hpos hrest
    have hunfold : downOffsets n prev (s :: rest) = r.2 :: downOffsets n r.1 rest := by
      simp [downOffsets, hr]
    rw [hunfold]
    constructor
    · rw [List.chain'_cons]
      refine ⟨hmono, ?_⟩
      rw [← heq]
      exact ihchain
    · intro p hp
      rw [List.zip_cons_cons, List.mem_cons] at hp
      rcases hp with hp | hp
      · subst hp
        exact ⟨hle, hub⟩
      · exact ihzip p hp

/-- C2 (counterexample): with 5 visible rows, initial offset 0 and the
monotone DOWN selection sequence `[7]` — the spec's own concrete example —
the returned offset is 2, and `selected < offset + num_rows` fails:
`7 < 2 + 5` is false (the selection sits exactly one past the window). -/
theorem scroll_down_counterexample :
    downOffsets 5 0 [7] = [2] ∧ ¬ (7 < 2 + 5) := by decide

/-- C2 (amended): for any monotonically non-decreasing sequence of
non-negative selected indices under direction DOWN, starting from persisted
offset 0 with `num_rows > 0`, the returned offsets never decrease, and after
each call `offset ≤ selected ≤ offset + num_rows` holds (the upper bound is
inclusive: the advance branch sets `offset = selected - num_rows`). -/
theorem scroll_down_monotone_window (n : ℤ) (l : List ℤ) (hn : 0 < n)
    (hsort : l.Sorted (· ≤ ·)) (hnonneg : ∀ s ∈ l, 0 ≤ s) :
    List.Chain' (· ≤ ·) (downOffsets n 0 l) ∧
    ∀ p ∈ (downOffsets n 0 l).zip l, p.1 ≤ p.2 ∧ p.2 ≤ p.1 + n := by
  obtain ⟨hchain, hzip⟩ := downOffsets_spec n hn l 0 hsort (le_refl 0) hnonneg
  exact ⟨hchain.tail, hzip⟩

/-- C2 witness: the amended theorem on the selection sequence `[3, 7, 9]`
with 5 visible rows. -/
theorem scroll_down_monotone_window_witness :
    List.Chain' (· ≤ ·) (downOffsets 5 0 [3, 7, 9]) ∧
    ∀ p ∈ (downOffsets 5 0 [3, 7, 9]).zip [3, 7, 9], p.1 ≤ p.2 ∧ p.2 ≤ p.1 + 5 :=
  scroll_down_monotone_window 5 [3, 7, 9] (by decide) (by decide) (by decide)

/-! ## Helper lemmas about the allocation pass and the redistribution loop -/

theorem allocStep_nonzero (rem : ℤ) (d : ℤ) (th : ℕ) (h : 0 ≤ rem)
    (hne : (allocStep rem d th).1 ≠ 0) :
    (allocStep rem d th).2 = rem - (allocStep rem d th).1 ∧
    0 ≤ (allocStep rem d th).2 ∧
    th ≤ (allocStep rem d th).1 := by
  unfold allocStep at *
  split_ifs at * <;> simp_all
  all_goals omega

theorem allocPass_length (l : List (ℤ × ℕ)) (rem : ℤ) :
    (allocPass l rem).1.length = l.length := by
  induction l generalizing rem with
  | nil => rfl
  | cons p rest ih =>
    obtain ⟨d, th⟩ := p
    simp only [allocPass]
    split
    · simp
    · simp [ih]

theorem allocPass_count_le (l : List (ℤ × ℕ)) (rem : ℤ) :
    (allocPass l rem).2.1 ≤ l.length := by
  induction l generalizing rem with
  | nil => exact le_refl 0
  | cons p rest ih =>
    obtain ⟨d, th⟩ := p
    simp only [allocPass]
    split
    · simp
    · simpa using ih (allocStep rem d th).2

theorem allocPass_sum (l : List (ℤ × ℕ)) (rem : ℤ) (h : 0 ≤ rem) :
    (((allocPass l rem).1.take (allocPass l rem).2.1).sum : ℤ) + (allocPass l rem).2.2
      = rem ∧
    0 ≤ (allocPass l rem).2.2 := by
  induction l generalizing rem with
  | nil => exact ⟨by simp [allocPass], by simpa [allocPass] using h⟩
  | cons p rest ih =>
    obtain ⟨d, th⟩ := p
    simp only [allocPass]
    split
    · exact ⟨by simp, h⟩
    · rename_i hne
      obtain ⟨hsnd, hpos, _⟩ := allocStep_nonzero rem d th h hne
      obtain ⟨ihsum, ihpos⟩ := ih (allocStep rem d th).2 hpos
      refine ⟨?_, ihpos⟩
      simp only [List.take_succ_cons, List.sum_cons]
      push_cast
      push_cast at ihsum
      omega

theorem allocPass_threshold (l : List (ℤ × ℕ)) (rem : ℤ) (h : 0 ≤ rem) :
    ∀ i, i < (allocPass l rem).2.1 →
      (l.getD i (0, 0)).2 ≤ (allocPass l rem).1.getD i 0 ∧
      (allocPass l rem).1.getD i 0 ≠ 0 := by
  induction l generalizing rem with
  | nil => intro i hi; simp [allocPass] at hi
  | cons p rest ih =>
    obtain ⟨d, th⟩ := p
    simp only [allocPass]
    split
    · intro i hi; simp at hi
    · rename_i hne
      obtain ⟨hsnd, hpos, hth⟩ := allocStep_nonzero rem d th h hne
      intro i hi
      match i with
      | 0 => exact ⟨hth, hne⟩
      | i + 1 =>
        simp only [List.getD_cons_succ]
        exact ih (allocStep rem d th).2 hpos i (by simpa using hi)

theorem getD_map_zero {α : Type} (l : List α) (i : ℕ) :
    (l.map (fun _ => (0 : ℕ))).getD i 0 = 0 := by
  induction l generalizing i with
  | nil => rfl
  | cons a t ih =>
    match i with
    | 0 => rfl
    | j + 1 => exact ih j

theorem allocPass_zero_after (l : List (ℤ × ℕ)) (rem : ℤ) :
    ∀ i, (allocPass l rem).2.1 ≤ i → (allocPass l rem).1.getD i 0 = 0 := by
  induction l generalizing rem with
  | nil => intro i _; simp [allocPass]
  | cons p rest ih =>
    obtain ⟨d, th⟩ := p
    simp only [allocPass]
    split
    · intro i _
      match i with
      | 0 => rfl
      | j + 1 =>
        simp only [List.getD_cons_succ]
        exact getD_map_zero rest j
    · intro i hi
      match i with
      | 0 => simp at hi
      | j + 1 =>
        simp only [List.getD_cons_succ]
        exact ih (allocStep rem d th).2 j (by simpa using hi)

theorem zip_getD_snd (l1 : List ℤ) (l2 : List ℕ) :
    ∀ i, i < (l1.zip l2).length → ((l1.zip l2).getD i (0, 0)).2 = l2.getD i 0 := by
  induction l1 generalizing l2 with
  | nil => intro i hi; simp at hi
  | cons a t ih =>
    match l2 with
    | [] => intro i hi; simp at hi
    | b :: t2 =>
      intro i hi
      match i with
      | 0 => rfl
      | j + 1 =>
        simp only [List.zip_cons_cons, List.getD_cons_succ]
        exact ih t2 j (by simpa using hi)

theorem redistribute_length (ws : List ℕ) (f : ℕ) (r : ℤ) :
    (redistribute ws f r).length = ws.length := by
  induction ws generalizing r with
  | nil => rfl
  | cons w t ih => simp [redistribute, ih]

theorem redistribute_getD (ws : List ℕ) (f : ℕ) (r : ℤ) :
    ∀ i, i < ws.length →
      (redistribute ws f r).getD i 0
        = ws.getD i 0 + f + (if (i : ℤ) < r then 1 else 0) := by
  induction ws generalizing r with
  | nil => intro i hi; simp at hi
  | cons w t ih =>
    intro i hi
    match i with
    | 0 => simp [redistribute]
    | j + 1 =>
      simp only [redistribute, List.getD_cons_succ]
      rw [ih (r - 1) j (by simpa using hi)]
      have hiff : ((j : ℤ) < r - 1) ↔ (((j + 1 : ℕ) : ℤ) < r) := by push_cast; omega
      rw [if_congr hiff rfl rfl]

theorem redistribute_take_sum (ws : List ℕ) (f : ℕ) :
    ∀ (k : ℕ) (r : ℤ), r ≤ k → k ≤ ws.length →
      (((redistribute ws f r).take k).sum : ℤ)
        = ((ws.take k).sum : ℤ) + k * f + max r 0 := by
  induction ws with
  | nil =>
    intro k r h1 h2
    have hk : k = 0 := by simpa using h2
    subst hk
    simp only [List.take_zero, List.sum_nil, Nat.cast_zero, zero_mul, add_zero, zero_add]
    omega
  | cons w t ih =>
    intro k r h1 h2
    match k with
    | 0 =>
      simp only [List.take_zero, List.sum_nil, Nat.cast_zero, zero_mul, add_zero, zero_add]
      omega
    | k + 1 =>
      simp only [redistribute, List.take_succ_cons, List.sum_cons]
      have h2' : k ≤ t.length := by simpa using h2
      have hih := ih k (r - 1) (by omega) h2'
      split_ifs with hr
      · push_cast
        push_cast at hih
        rw [hih]
        ring_nf
        omega
      · push_cast
        push_cast at hih
        rw [hih]
        ring_nf
        omega

theorem allocResult_def (t : ℕ) (rs : List ℚ) (ts : List ℕ) :
    allocResult t rs ts
      = allocPass ((desiredWidths rs t).zip ts) ((t : ℤ) - ((rs.length : ℤ) - 1)) := rfl

/-! ## C3: bounds on the rendered prefix of the allocation -/

/-- C3 (counterexample): on total width 20, ratios `[0.1, 0.9]` and thresholds
`[2, 50]`, the function returns widths `[19, 17]` with `rendered_count = 1`:
the full output sums to 36 > 20 − (2−1) = 19, and the width 17 at index 1 is
non-zero yet below its threshold 50 (the redistribution loop also feeds the
zeroed columns past `rendered_count`). -/
theorem alloc_width_bounds_counterexample :
    get_variable_intrinsic_widths 20 [1/10, 9/10] [2, 50] = some ([19, 17], 1) ∧
    ¬ (19 + 17 ≤ 20 - (2 - 1)) ∧
    ([19, 17] : List ℕ).getD 1 0 ≠ 0 ∧
    ¬ (50 ≤ ([19, 17] : List ℕ).getD 1 0) := by
  refine ⟨?_, by decide, by decide, by decide⟩
  simp only [get_variable_intrinsic_widths, allocResult, desiredWidths_tenth_ninth_20]
  decide

/-- C3 (amended): whenever `get_variable_intrinsic_widths` returns, the claimed
guarantees hold for the first `rendered_count` columns (the only ones drawn):
their widths sum to at most `total_width - (N-1)`, each of them is non-zero
and at least its threshold, every column of the allocation pass that received
width 0 lies at or past `rendered_count`, and `rendered_count ≤ N`. (The full
output vector can violate the sum bound and the threshold bound, because the
redistribution loop also adds to the zeroed columns past `rendered_count`;
those columns are never drawn.) -/
theorem alloc_rendered_prefix_bounds (total_width : ℕ) (ratios : List ℚ)
    (ths : List ℕ) (ws : List ℕ) (rc : ℕ)
    (hres : get_variable_intrinsic_widths total_width ratios ths = some (ws, rc)) :
    (ws.take rc).sum + (ratios.length - 1) ≤ total_width ∧
    (∀ i, i < rc → ths.getD i 0 ≤ ws.getD i 0 ∧ ws.getD i 0 ≠ 0) ∧
    (∀ i, (allocResult total_width ratios ths).1.getD i 0 = 0 → rc ≤ i) ∧
    rc ≤ ratios.length := by
  simp only [get_variable_intrinsic_widths] at hres
  by_cases h0 : ratios.length = 0
  · rw [if_pos h0] at hres; exact absurd hres (by simp)
  rw [if_neg h0] at hres
  by_cases h1 : total_width + 1 < ratios.length
  · rw [if_pos h1] at hres; exact absurd hres (by simp)
  rw [if_neg h1] at hres
  set A := allocResult total_width ratios ths with hA
  have hrem : 0 ≤ (total_width : ℤ) - ((ratios.length : ℤ) - 1) := by
    have h1' : ratios.length ≤ total_width + 1 := Nat.not_lt.mp h1
    omega
  have hsum := allocPass_sum ((desiredWidths ratios total_width).zip ths) _ hrem
  have hth := allocPass_threshold ((desiredWidths ratios total_width).zip ths) _ hrem
  have hzero := allocPass_zero_after ((desiredWidths ratios total_width).zip ths)
    ((total_width : ℤ) - ((ratios.length : ℤ) - 1))
  have hlenA := allocPass_length ((desiredWidths ratios total_width).zip ths)
    ((total_width : ℤ) - ((ratios.length : ℤ) - 1))
  have hcntA := allocPass_count_le ((desiredWidths ratios total_width).zip ths)
    ((total_width : ℤ) - ((ratios.length : ℤ) - 1))
  rw [← allocResult_def, ← hA] at hsum hth hzero hlenA hcntA
  have hdlen : (desiredWidths ratios total_width).length = ratios.length := by
    simp [desiredWidths]
  have hplen : ((desiredWidths ratios total_width).zip ths).length ≤ ratios.length := by
    rw [List.length_zip, hdlen]; exact min_le_left _ _
  by_cases hlt : A.2.1 < ratios.length
  · rw [if_pos hlt] at hres
    by_cases hz0 : A.2.1 = 0
    · rw [if_pos hz0] at hres; exact absurd hres (by simp)
    rw [if_neg hz0] at hres
    simp only [Option.some.injEq, Prod.mk.injEq] at hres
    obtain ⟨hws, hrc⟩ := hres
    subst hrc
    subst hws
    have hpos : 0 < A.2.1 := Nat.pos_of_ne_zero hz0
    have hposZ : (0 : ℤ) < (A.2.1 : ℤ) := by exact_mod_cast hpos
    have hremF : 0 ≤ A.2.2 := hsum.2
    have hr0 : 0 ≤ A.2.2 % (A.2.1 : ℤ) := Int.emod_nonneg _ (by omega)
    have hrlt : A.2.2 % (A.2.1 : ℤ) < (A.2.1 : ℤ) := Int.emod_lt_of_pos _ hposZ
    have hfc : (((A.2.2 / (A.2.1 : ℤ)).toNat : ℕ) : ℤ) = A.2.2 / (A.2.1 : ℤ) :=
      Int.toNat_of_nonneg (Int.ediv_nonneg hremF (le_of_lt hposZ))
    have hcnt1 : A.2.1 ≤ A.1.length := by rw [hlenA]; exact hcntA
    have htake := redistribute_take_sum A.1 ((A.2.2 / (A.2.1 : ℤ)).toNat) A.2.1
      (A.2.2 % (A.2.1 : ℤ)) (le_of_lt (by exact_mod_cast hrlt)) hcnt1
    rw [hfc] at htake
    have hdm := Int.ediv_add_emod A.2.2 (A.2.1 : ℤ)
    refine ⟨?_, ?_, ?_, ?_⟩
    · have hs1 := hsum.1
      omega
    · intro i hi
      have hi' : i < A.1.length := lt_of_lt_of_le hi hcnt1
      have hgd := redistribute_getD A.1 ((A.2.2 / (A.2.1 : ℤ)).toNat)
        (A.2.2 % (A.2.1 : ℤ)) i hi'
      have hthr := hth i hi
      have hzip := zip_getD_snd (desiredWidths ratios total_width) ths i
        (lt_of_lt_of_le hi (by rw [← hlenA]; exact hcnt1))
      rw [hzip] at hthr
      rw [hgd]
      constructor
      · split_ifs <;> omega
      · split_ifs <;> omega
    · intro i hzi
      by_contra hcon
      exact (hth i (Nat.lt_of_not_le hcon)).2 hzi
    · exact le_of_lt hlt
  · rw [if_neg hlt] at hres
    simp only [Option.some.injEq, Prod.mk.injEq] at hres
    obtain ⟨hws, hrc⟩ := hres
    subst hrc
    subst hws
    refine ⟨?_, ?_, ?_, ?_⟩
    · have hs1 := hsum.1
      have hremF : 0 ≤ A.2.2 := hsum.2
      omega
    · intro i hi
      have hthr := hth i hi
      have hzip := zip_getD_snd (desiredWidths ratios total_width) ths i
        (lt_of_lt_of_le hi (le_trans hcntA (le_of_eq rfl)))
      rw [hzip] at hthr
      exact hthr
    · intro i hzi
      by_contra hcon
      exact (hth i (Nat.lt_of_not_le hcon)).2 hzi
    · exact le_trans hcntA hplen

/-- C3 witness: the amended theorem at the concrete input of C8. -/
theorem alloc_rendered_prefix_bounds_witness :
    (([10, 9] : List ℕ).take 2).sum + (([1/2, 1/2] : List ℚ).length - 1) ≤ 20 ∧
    (∀ i, i < 2 → ([5, 5] : List ℕ).getD i 0 ≤ ([10, 9] : List ℕ).getD i 0 ∧
      ([10, 9] : List ℕ).getD i 0 ≠ 0) ∧
    (∀ i, (allocResult 20 [1/2, 1/2] [5, 5]).1.getD i 0 = 0 → 2 ≤ i) ∧
    2 ≤ ([1/2, 1/2] : List ℚ).length :=
  alloc_rendered_prefix_bounds 20 [1/2, 1/2] [5, 5] [10, 9] 2 (by
    simp only [get_variable_intrinsic_widths, allocResult, desiredWidths_half_20]
    decide)

/-! ## C4: what the redistribution step actually does -/

/-- C4 (counterexample): on total width 40, ratios `[0.1, 0.1]` and thresholds
`[1, 1]`, the pass allocates `[4, 4]` with `rendered_count = 2` and leftover
31, yet the function returns `[4, 4]`: because `rendered_count` equals the
column count, the redistribution branch is skipped and the leftover is not
redistributed at all, while the claimed redistribution would give `[20, 19]`. -/
theorem alloc_redistribution_counterexample :
    get_variable_intrinsic_widths 40 [1/10, 1/10] [1, 1] = some ([4, 4], 2) ∧
    allocResult 40 [1/10, 1/10] [1, 1] = ([4, 4], 2, 31) ∧
    specRedistribute [4, 4] 2 31 = [20, 19] ∧
    ¬ (([4, 4] : List ℕ) = [20, 19]) := by
  refine ⟨?_, ?_, by decide, by decide⟩
  · simp only [get_variable_intrinsic_widths, allocResult, desiredWidths_tenth_tenth_40]
    decide
  · simp only [allocResult, desiredWidths_tenth_tenth_40]
    decide

/-- C4 (amended): the redistribution loop runs only when
`rendered_count < N`; it then adds the quotient `leftover / rendered_count`
to every one of the output's columns — including the zero-width columns past
`rendered_count` — and hands the remainder (which is non-negative and smaller
than `rendered_count`) out one unit at a time starting from the first column.
When `rendered_count = N` no redistribution happens and the leftover is
simply dropped. -/
theorem alloc_redistribution_formula (total_width : ℕ) (ratios : List ℚ)
    (ths : List ℕ) (ws : List ℕ) (rc : ℕ)
    (hres : get_variable_intrinsic_widths total_width ratios ths = some (ws, rc)) :
    rc = (allocResult total_width ratios ths).2.1 ∧
    (rc < ratios.length →
      0 < rc ∧
      0 ≤ (allocResult total_width ratios ths).2.2 % (rc : ℤ) ∧
      (allocResult total_width ratios ths).2.2 % (rc : ℤ) < (rc : ℤ) ∧
      (∀ i, i < ws.length →
        (ws.getD i 0 : ℤ)
          = ((allocResult total_width ratios ths).1.getD i 0 : ℤ)
            + (allocResult total_width ratios ths).2.2 / (rc : ℤ)
            + (if (i : ℤ) < (allocResult total_width ratios ths).2.2 % (rc : ℤ)
                then 1 else 0))) ∧
    (ratios.length ≤ rc → ws = (allocResult total_width ratios ths).1) := by
  simp only [get_variable_intrinsic_widths] at hres
  by_cases h0 : ratios.length = 0
  · rw [if_pos h0] at hres; exact absurd hres (by simp)
  rw [if_neg h0] at hres
  by_cases h1 : total_width + 1 < ratios.length
  · rw [if_pos h1] at hres; exact absurd hres (by simp)
  rw [if_neg h1] at hres
  set A := allocResult total_width ratios ths with hA
  have hrem : 0 ≤ (total_width : ℤ) - ((ratios.length : ℤ) - 1) := by
    have h1' : ratios.length ≤ total_width + 1 := Nat.not_lt.mp h1
    omega
  have hsum := allocPass_sum ((desiredWidths ratios total_width).zip ths) _ hrem
  rw [← allocResult_def, ← hA] at hsum
  by_cases hlt : A.2.1 < ratios.length
  · rw [if_pos hlt] at hres
    by_cases hz0 : A.2.1 = 0
    · rw [if_pos hz0] at hres; exact absurd hres (by simp)
    rw [if_neg hz0] at hres
    simp only [Option.some.injEq, Prod.mk.injEq] at hres
    obtain ⟨hws, hrc⟩ := hres
    subst hrc
    subst hws
    have hpos : 0 < A.2.1 := Nat.pos_of_ne_zero hz0
    have hposZ : (0 : ℤ) < (A.2.1 : ℤ) := by exact_mod_cast hpos
    have hremF : 0 ≤ A.2.2 := hsum.2
    have hr0 : 0 ≤ A.2.2 % (A.2.1 : ℤ) := Int.emod_nonneg _ (by omega)
    have hrlt : A.2.2 % (A.2.1 : ℤ) < (A.2.1 : ℤ) := Int.emod_lt_of_pos _ hposZ
    have hfc : (((A.2.2 / (A.2.1 : ℤ)).toNat : ℕ) : ℤ) = A.2.2 / (A.2.1 : ℤ) :=
      Int.toNat_of_nonneg (Int.ediv_nonneg hremF (le_of_lt hposZ))
    refine ⟨rfl, fun _ => ⟨hpos, hr0, hrlt, ?_⟩,
      fun hge => absurd hlt (Nat.not_lt.mpr hge)⟩
    intro i hi
    rw [redistribute_length] at hi
    rw [redistribute_getD A.1 _ _ i hi, Nat.cast_add, Nat.cast_add,
      apply_ite (fun n : ℕ => (n : ℤ)), Nat.cast_one, Nat.cast_zero, hfc]
  · rw [if_neg hlt] at hres
    simp only [Option.some.injEq, Prod.mk.injEq] at hres
    obtain ⟨hws, hrc⟩ := hres
    subst hrc
    subst hws
    exact ⟨rfl, fun h => absurd h hlt, fun _ => rfl⟩

/-- C4 witness: the amended theorem at the input of the C3 counterexample,
where `rendered_count = 1 < 2` and the redistribution branch runs. -/
theorem alloc_redistribution_formula_witness :
    1 = (allocResult 20 [1/10, 9/10] [2, 50]).2.1 ∧
    (1 < ([1/10, 9/10] : List ℚ).length →
      0 < 1 ∧
      0 ≤ (allocResult 20 [1/10, 9/10] [2, 50]).2.2 % ((1 : ℕ) : ℤ) ∧
      (allocResult 20 [1/10, 9/10] [2, 50]).2.2 % ((1 : ℕ) : ℤ) < ((1 : ℕ) : ℤ) ∧
      (∀ i, i < ([19, 17] : List ℕ).length →
        (([19, 17] : List ℕ).getD i 0 : ℤ)
          = ((allocResult 20 [1/10, 9/10] [2, 50]).1.getD i 0 : ℤ)
            + (allocResult 20 [1/10, 9/10] [2, 50]).2.2 / ((1 : ℕ) : ℤ)
            + (if (i : ℤ) < (allocResult 20 [1/10, 9/10] [2, 50]).2.2 % ((1 : ℕ) : ℤ)
                then 1 else 0))) ∧
    (([1/10, 9/10] : List ℚ).length ≤ 1 →
      ([19, 17] : List ℕ) = (allocResult 20 [1/10, 9/10] [2, 50]).1) :=
  alloc_redistribution_formula 20 [1/10, 9/10] [2, 50] [19, 17] 1 (by
    simp only [get_variable_intrinsic_widths, allocResult, desiredWidths_tenth_ninth_20]
    decide)
